import Mathlib

/-!
# Verification of the modified-Tanimoto fingerprint core

A shallow embedding of the similarity-scoring core of the
3D-e-Chem/python-modified-tanimoto repository (kripodb): fingerprints are
sparse bit-vectors modelled as finite sets of bit positions, scores are
exact rationals, and the stateful store / webservice pieces are modelled
as explicit functional state.
-/

/-- A fingerprint: the set of set-bit positions of a sparse bit-vector. -/
abbrev Fingerprint := Finset ℕ

/-- Modelled from the spec: `kripodb.modifiedtanimoto.distance` is not under
`src/` (only its tests are).  The spec (§4.4, §9) fixes the closed form only
through the correction-weight derivation and the acceptance vectors of §8;
the unique form matching both literal vectors is
`corr_st * (c / (a + b - c)) + corr_sto * ((n - a - b - c) / (n - c))`
where `a`, `b` are the on-bit counts, `c` the shared on-bit count and `n`
the declared number of bits. -/
def distance (bitset1 bitset2 : Fingerprint) (number_of_bits : ℕ)
    (corr_st corr_sto : ℚ) : ℚ :=
  let a : ℚ := bitset1.card
  let b : ℚ := bitset2.card
  let c : ℚ := (bitset1 ∩ bitset2).card
  let n : ℚ := number_of_bits
  corr_st * (c / (a + b - c)) + corr_sto * ((n - a - b - c) / (n - c))

/-- Modelled from the spec: `kripodb.modifiedtanimoto.corrections` is not
under `src/`.  Spec §4.4: `corr_st = (2 - p) / 3`, `corr_sto = (1 + p) / 3`. -/
def corrections (p : ℚ) : ℚ × ℚ :=
  ((2 - p) / 3, (1 + p) / 3)

/-- Modelled from the spec: `kripodb.modifiedtanimoto.calc_mean_onbit_density`
is not under `src/`.  Spec §4.4: the arithmetic mean over the collection of
`(set-bit count) / number_of_bits`, an error (`none`) for an empty collection
or `number_of_bits ≤ 0`; computed as the mean on-bit count divided by the
number of bits. -/
def calc_mean_onbit_density (bitsets : List Fingerprint)
    (number_of_bits : ℤ) : Option ℚ :=
  if bitsets.isEmpty ∨ number_of_bits ≤ 0 then
    none
  else
    some (((bitsets.map (fun bs => (bs.card : ℚ))).sum / bitsets.length)
      / number_of_bits)

/-- The pair enumeration underlying `distances`: every pair from the cross
product of the two labelled collections, with self-comparisons excluded and,
when `ignore_upper_triangle` is set, only the direction whose first label is
not greater (label comparison is the lexicographic order on the characters,
as in the source language). -/
def pairCandidates (bitsets1 bitsets2 : List (String × Fingerprint))
    (ignore_upper_triangle : Bool) :
    List ((String × Fingerprint) × String × Fingerprint) :=
  bitsets1.flatMap fun p1 =>
    bitsets2.filterMap fun p2 =>
      if p1.1 = p2.1 then
        none
      else if ignore_upper_triangle ∧ p2.1.data < p1.1.data then
        none
      else
        some (p1, p2)

/-- Modelled from the spec: `kripodb.modifiedtanimoto.distances` is not under
`src/`.  Spec §4.4: every pair from the cross product of the two labelled
collections, self-comparisons excluded, scored, and kept exactly when the
score is ≥ `cutoff`; with `ignore_upper_triangle` each unordered pair is
emitted once (the direction with the smaller label first, matching the §8
batch vectors). -/
def distances (bitsets1 bitsets2 : List (String × Fingerprint))
    (number_of_bits : ℕ) (corr_st corr_sto cutoff : ℚ)
    (ignore_upper_triangle : Bool) : List (String × String × ℚ) :=
  ((pairCandidates bitsets1 bitsets2 ignore_upper_triangle).map fun t =>
      (t.1.1, t.2.1, distance t.1.2 t.2.2 number_of_bits corr_st corr_sto)).filter
    fun t => decide (cutoff ≤ t.2.2)

/-- The three fingerprints of the §8 batch scenario. -/
def fpA : Fingerprint := {1, 2, 3}

/-- The fingerprint `b = {1,2,4,5,8}` of the §8 batch scenario. -/
def fpB : Fingerprint := {1, 2, 4, 5, 8}

/-- The fingerprint `c = {1,2,4,8}` of the §8 batch scenario. -/
def fpC : Fingerprint := {1, 2, 4, 8}

/-- The labelled collection `{a, b, c}` used by the batch tests. -/
def batchInput : List (String × Fingerprint) :=
  [("a", fpA), ("b", fpB), ("c", fpC)]

/-- Modelled from the spec: `kripodb.db.adapt_intbitset` is not under `src/`
(only its test is).  Spec §4.1: the codec stores exactly the set-bit
positions present, compactly; modelled as the sorted list of positions. -/
def adapt_intbitset (bs : Fingerprint) : List ℕ :=
  bs.sort (· ≤ ·)

/-- Modelled from the spec: `kripodb.db.convert_intbitset` is not under
`src/`.  Spec §4.1: decodes a stored blob back to the fingerprint holding
exactly the serialized positions. -/
def convert_intbitset (blob : List ℕ) : Fingerprint :=
  blob.toFinset

/-- Modelled from the spec: `kripodb.db.IntbitsetDict` is not under `src/`
(only its tests are).  Spec §3/§4.2: an ordered identifier→fingerprint
mapping plus one optional `number_of_bits` metadata field. -/
structure IntbitsetDict where
  entries : List (String × Fingerprint)
  number_of_bits : Option ℕ

/-- A fresh, empty store with the metadata field never set. -/
def IntbitsetDict.empty : IntbitsetDict :=
  { entries := [], number_of_bits := none }

/-- Modelled from the spec (§4.2): read the `number_of_bits` metadata field,
`none` when absent. -/
def IntbitsetDict.getNumberOfBits (d : IntbitsetDict) : Option ℕ :=
  d.number_of_bits

/-- Modelled from the spec (§4.2): set the `number_of_bits` metadata field. -/
def IntbitsetDict.setNumberOfBits (d : IntbitsetDict) (n : ℕ) : IntbitsetDict :=
  { d with number_of_bits := some n }

/-- Modelled from the spec (§4.2): delete the `number_of_bits` metadata
field, clearing it to absent. -/
def IntbitsetDict.deleteNumberOfBits (d : IntbitsetDict) : IntbitsetDict :=
  { d with number_of_bits := none }

/-- Modelled from the spec (§4.2): `length()`, the count of stored
identifier→fingerprint entries. -/
def IntbitsetDict.length (d : IntbitsetDict) : ℕ :=
  d.entries.length

/-- Modelled from the spec (§4.2): `contains(id)`, the membership test. -/
def IntbitsetDict.containsId (d : IntbitsetDict) (id : String) : Bool :=
  d.entries.any fun e => e.1 == id

/-- Modelled from the spec (§4.2, §7): `get(id)`, failing with a not-found
condition carrying exactly the missing identifier when absent. -/
def IntbitsetDict.getItem (d : IntbitsetDict) (id : String) :
    Except String Fingerprint :=
  match d.entries.find? (fun e => e.1 == id) with
  | some e => Except.ok e.2
  | none => Except.error id

/-- Modelled from the spec (§4.2): `set(id, fingerprint)`, creating or
overwriting an entry. -/
def IntbitsetDict.setItem (d : IntbitsetDict) (id : String)
    (fp : Fingerprint) : IntbitsetDict :=
  { d with entries :=
      (d.entries.filter fun e => e.1 != id) ++ [(id, fp)] }

/-- The SQLite journal modes the bulk-load session toggles between. -/
inductive JournalMode where
  | wal
  | delete
deriving DecidableEq

/-- The SQLite synchronous-flush modes the bulk-load session toggles
between. -/
inductive SyncMode where
  | off
  | full
deriving DecidableEq

/-- The durability-relevant state of the backing store. -/
structure DbState where
  journal_mode : JournalMode
  synchronous : SyncMode
deriving DecidableEq

/-- Modelled from the spec: `kripodb.db.FastInserter.__enter__` is not under
`src/` (only its test is).  On entry the session switches the store to the
throughput mode: write-ahead journaling, synchronous flush off. -/
def fastInserterEnter (_ : DbState) : DbState :=
  { journal_mode := JournalMode.wal, synchronous := SyncMode.off }

/-- Modelled from the spec: `kripodb.db.FastInserter.__exit__` is not under
`src/`.  On exit the session unconditionally restores the conservative
durability mode: conservative journaling, synchronous flush on. -/
def fastInserterExit (_ : DbState) : DbState :=
  { journal_mode := JournalMode.delete, synchronous := SyncMode.full }

/-- Modelled from the spec (§4.3): the scoped bulk-load session.  The body
runs on the state produced by entry and may end in a value or an error; the
exit action runs on the body's final state before control returns, on the
success path and on every error path alike (guaranteed-cleanup semantics of
the context-manager protocol). -/
def withFastInserter {ε α : Type} (body : DbState → DbState × Except ε α)
    (s : DbState) : DbState × Except ε α :=
  let s1 := fastInserterEnter s
  let r := body s1
  (fastInserterExit r.1, r.2)

/-- The descending-score comparison used to order query results. -/
def scoreDescOrder (x y : String × ℚ) : Prop :=
  y.2 ≤ x.2

instance : DecidableRel scoreDescOrder := fun x y =>
  inferInstanceAs (Decidable (y.2 ≤ x.2))

instance : IsTotal (String × ℚ) scoreDescOrder :=
  ⟨fun a b => le_total b.2 a.2⟩

instance : IsTrans (String × ℚ) scoreDescOrder :=
  ⟨fun _ _ _ hab hbc => le_trans hbc hab⟩

/-- Whether `query_id` appears in any persisted triple of the index. -/
def appearsIn (matrix : List (String × String × ℚ)) (query_id : String) :
    Bool :=
  matrix.any fun t => t.1 == query_id || t.2.1 == query_id

/-- All persisted triples touching `query_id`, reshaped to
`(neighbor_id, score)` pairs. -/
def neighborsOf (matrix : List (String × String × ℚ)) (query_id : String) :
    List (String × ℚ) :=
  matrix.filterMap fun t =>
    if t.1 == query_id then some (t.2.1, t.2.2)
    else if t.2.1 == query_id then some (t.1, t.2.2)
    else none

/-- The neighbors of `query_id` whose score meets the cutoff. -/
def qualifying (matrix : List (String × String × ℚ)) (query_id : String)
    (cutoff : ℚ) : List (String × ℚ) :=
  (neighborsOf matrix query_id).filter fun h => decide (cutoff ≤ h.2)

/-- Truncation to an optional result limit (`none` means no limit). -/
def truncateTo {α : Type} (limit : Option ℕ) (l : List α) : List α :=
  match limit with
  | some n => l.take n
  | none => l

/-- Modelled from the spec: `DistanceMatrix.find` (`kripodb/hdf5.py`) is not
under `src/` (only its caller and tests are).  Spec §4.5: all persisted
triples touching `query_id`, those with `score ≥ cutoff` kept, ordered by
descending score, truncated to at most `limit` entries; a not-found error
naming the unknown identifier when `query_id` never appears in the index. -/
def find (matrix : List (String × String × ℚ)) (query_id : String)
    (cutoff : ℚ) (limit : Option ℕ) : Except String (List (String × ℚ)) :=
  if appearsIn matrix query_id then
    Except.ok (truncateTo limit
      (List.insertionSort scoreDescOrder (qualifying matrix query_id cutoff)))
  else
    Except.error ("Frag " ++ query_id ++ " not found")

/-- One reshaped hit of the webservice:
`{query_frag_id, hit_frag_id, score}`. -/
structure Hit where
  query_frag_id : String
  hit_frag_id : String
  score : ℚ
deriving DecidableEq

/-- From `src/kripodb/webservice/__init__.py`, `get_similar_fragments`:
looks up the raw hits with `find` and adds the query column, producing one
result per raw hit in order; a not-found condition propagates to the
caller. -/
def get_similar_fragments (matrix : List (String × String × ℚ))
    (fragment_id : String) (cutoff : ℚ) (limit : Option ℕ) :
    Except String (List Hit) :=
  match find matrix fragment_id cutoff limit with
  | Except.error e => Except.error e
  | Except.ok raw_hits =>
      Except.ok (raw_hits.map fun h =>
        { query_frag_id := fragment_id, hit_frag_id := h.1, score := h.2 })

/-- Summing a list after dividing each element by a constant is the same as
dividing the sum. -/
theorem list_sum_map_div (l : List ℚ) (c : ℚ) :
    (l.map (fun x => x / c)).sum = l.sum / c := by
  induction l with
  | nil => simp
  | cons x xs ih => simp [ih, add_div]

/-- C1: `score` on the fingerprints `{1,2,3}` and `{1,2,4,8}` with
`number_of_bits = 100`, `corr_on = 0.6633333333333` and
`corr_off = 0.3366666666667` returns `0.5779523809525572` to within `1e-9`. -/
theorem distance_test_vector :
    |distance {1, 2, 3} {1, 2, 4, 8} 100
        (0.6633333333333 : ℚ) (0.3366666666667 : ℚ)
      - 0.5779523809525572| ≤ 1 / 1000000000 := by
  have h1 : (({1, 2, 3} : Finset ℕ)).card = 3 := rfl
  have h2 : (({1, 2, 4, 8} : Finset ℕ)).card = 4 := rfl
  have h3 : (({1, 2, 3} : Finset ℕ) ∩ {1, 2, 4, 8}).card = 2 := rfl
  rw [abs_le]
  constructor <;> · simp only [distance, h1, h2, h3]; norm_num

/-- C3: for every `p ∈ [0,1]`, `corrections p` is the pair
`((2 - p)/3, (1 + p)/3)`, the two components sum to 1, and
`corrections 0.01` matches `(0.6633333333333, 0.3366666666667)` to 10
decimal places. -/
theorem corrections_spec (p : ℚ) (h0 : 0 ≤ p) (h1 : p ≤ 1) :
    ((corrections p).1 = (2 - p) / 3 ∧
     (corrections p).2 = (1 + p) / 3 ∧
     (corrections p).1 + (corrections p).2 = 1) ∧
    (|(corrections 0.01).1 - 0.6633333333333| ≤ 1 / 10000000000 ∧
     |(corrections 0.01).2 - 0.3366666666667| ≤ 1 / 10000000000) := by
  refine ⟨⟨rfl, rfl, ?_⟩,
    by rw [corrections, abs_le]; constructor <;> norm_num,
    by rw [corrections, abs_le]; constructor <;> norm_num⟩
  show (2 - p) / 3 + (1 + p) / 3 = 1
  ring

/-- Witness for C3 at the concrete density `p = 0.01`. -/
theorem corrections_spec_witness :
    (0 : ℚ) ≤ 0.01 ∧
    (corrections 0.01).1 + (corrections 0.01).2 = 1 :=
  ⟨by norm_num, ((corrections_spec 0.01 (by norm_num) (by norm_num)).1).2.2⟩

/-- C4: `mean_on_bit_density` over a non-empty collection with a positive
number of bits is the arithmetic mean of `(set-bit count) / number_of_bits`,
it is `none` for an empty collection or a non-positive number of bits, and
on the three §8 fingerprints with 100 bits it returns exactly `0.04`. -/
theorem calc_mean_onbit_density_spec (bitsets : List Fingerprint) (n : ℤ)
    (hne : bitsets ≠ []) (hn : 0 < n) :
    calc_mean_onbit_density bitsets n
      = some ((bitsets.map (fun bs => (bs.card : ℚ) / (n : ℚ))).sum
          / bitsets.length) ∧
    (∀ m : ℤ, calc_mean_onbit_density [] m = none) ∧
    (∀ l (m : ℤ), m ≤ 0 → calc_mean_onbit_density l m = none) ∧
    calc_mean_onbit_density [fpA, fpB, fpC] 100 = some 0.04 := by
  have hA : fpA.card = 3 := rfl
  have hB : fpB.card = 5 := rfl
  have hC : fpC.card = 4 := rfl
  refine ⟨?_, ?_, ?_, by simp [calc_mean_onbit_density, hA, hB, hC]; norm_num⟩
  · have hcond : ¬(bitsets.isEmpty ∨ n ≤ 0) := by
      simp [List.isEmpty_iff, hne, not_le, hn]
    rw [calc_mean_onbit_density, if_neg hcond]
    have hmap : bitsets.map (fun bs => (bs.card : ℚ) / (n : ℚ))
        = (bitsets.map (fun bs => (bs.card : ℚ))).map (fun x => x / (n : ℚ)) := by
      simp [List.map_map, Function.comp]
    rw [hmap, list_sum_map_div]
    congr 1
    field_simp
    ring
  · intro m
    simp [calc_mean_onbit_density]
  · intro l m hm
    simp [calc_mean_onbit_density, hm]

/-- Witness for C4 on the singleton collection `[{1,2,3}]` with 100 bits. -/
theorem calc_mean_onbit_density_spec_witness :
    calc_mean_onbit_density [fpA] 100
      = some ((([fpA].map (fun bs => (bs.card : ℚ) / (100 : ℚ))).sum)
          / ([fpA] : List Fingerprint).length) :=
  (calc_mean_onbit_density_spec [fpA] 100 (by simp) (by norm_num)).1

/-- C2: the batch run over `a = {1,2,3}`, `b = {1,2,4,5,8}`, `c = {1,2,4,8}`
with 100 bits, the §8 correction pair and cutoff 0.55 yields, with symmetric
deduplication, exactly the pairs `(a,c)` and `(b,c)` with the §8 scores (to
`1e-9`), and without deduplication exactly the four mirror-closed triples
with equal mirror scores; no self-pair is emitted and every emitted score
meets the cutoff. -/
theorem distances_batch_vectors :
    (∃ q1 q2,
      distances batchInput batchInput 100 0.6633333333333 0.3366666666667
          0.55 true = [("a", "c", q1), ("b", "c", q2)] ∧
      distances batchInput batchInput 100 0.6633333333333 0.3366666666667
          0.55 false
        = [("a", "c", q1), ("b", "c", q2), ("c", "a", q1), ("c", "b", q2)] ∧
      |q1 - 0.5779523809525572| ≤ 1 / 1000000000 ∧
      |q2 - 0.8357708333333689| ≤ 1 / 1000000000) ∧
    List.Forall (fun t => t.1 ≠ t.2.1 ∧ (0.55 : ℚ) ≤ t.2.2)
      (distances batchInput batchInput 100 0.6633333333333 0.3366666666667
        0.55 true) ∧
    List.Forall (fun t => t.1 ≠ t.2.1 ∧ (0.55 : ℚ) ≤ t.2.2)
      (distances batchInput batchInput 100 0.6633333333333 0.3366666666667
        0.55 false) := by
  have cA : fpA.card = 3 := rfl
  have cB : fpB.card = 5 := rfl
  have cC : fpC.card = 4 := rfl
  have iAB : (fpA ∩ fpB).card = 2 := rfl
  have iAC : (fpA ∩ fpC).card = 2 := rfl
  have iBC : (fpB ∩ fpC).card = 4 := rfl
  have iBA : (fpB ∩ fpA).card = 2 := rfl
  have iCA : (fpC ∩ fpA).card = 2 := rfl
  have iCB : (fpC ∩ fpB).card = 4 := rfl
  have dAB : distance fpA fpB 100 0.6633333333333 0.3366666666667
      = 129922222222227 / 245000000000000 := by
    simp only [distance, cA, cB, iAB]; norm_num
  have dAC : distance fpA fpC 100 0.6633333333333 0.3366666666667
      = 404566666666679 / 700000000000000 := by
    simp only [distance, cA, cC, iAC]; norm_num
  have dBC : distance fpB fpC 100 0.6633333333333 0.3366666666667
      = 1337233333333339 / 1600000000000000 := by
    simp only [distance, cB, cC, iBC]; norm_num
  have dBA : distance fpB fpA 100 0.6633333333333 0.3366666666667
      = 129922222222227 / 245000000000000 := by
    simp only [distance, cA, cB, iBA]; norm_num
  have dCA : distance fpC fpA 100 0.6633333333333 0.3366666666667
      = 404566666666679 / 700000000000000 := by
    simp only [distance, cA, cC, iCA]; norm_num
  have dCB : distance fpC fpB 100 0.6633333333333 0.3366666666667
      = 1337233333333339 / 1600000000000000 := by
    simp only [distance, cB, cC, iCB]; norm_num
  have hpcT : pairCandidates batchInput batchInput true
      = [(("a", fpA), ("b", fpB)), (("a", fpA), ("c", fpC)),
         (("b", fpB), ("c", fpC))] := by
    decide
  have hpcF : pairCandidates batchInput batchInput false
      = [(("a", fpA), ("b", fpB)), (("a", fpA), ("c", fpC)),
         (("b", fpB), ("a", fpA)), (("b", fpB), ("c", fpC)),
         (("c", fpC), ("a", fpA)), (("c", fpC), ("b", fpB))] := by
    decide
  have hT : distances batchInput batchInput 100 0.6633333333333
      0.3366666666667 0.55 true
      = [("a", "c", 404566666666679 / 700000000000000),
         ("b", "c", 1337233333333339 / 1600000000000000)] := by
    rw [distances, hpcT, List.map_cons, List.map_cons, List.map_cons,
      List.map_nil]
    rw [dAB, dAC, dBC]
    norm_num [List.filter_cons]
  have hF : distances batchInput batchInput 100 0.6633333333333
      0.3366666666667 0.55 false
      = [("a", "c", 404566666666679 / 700000000000000),
         ("b", "c", 1337233333333339 / 1600000000000000),
         ("c", "a", 404566666666679 / 700000000000000),
         ("c", "b", 1337233333333339 / 1600000000000000)] := by
    rw [distances, hpcF, List.map_cons, List.map_cons, List.map_cons,
      List.map_cons, List.map_cons, List.map_cons, List.map_nil]
    rw [dAB, dAC, dBA, dBC, dCA, dCB]
    norm_num [List.filter_cons]
  refine ⟨⟨404566666666679 / 700000000000000,
    1337233333333339 / 1600000000000000, hT, hF, ?_, ?_⟩, ?_, ?_⟩
  · rw [abs_le]; constructor <;> norm_num
  · rw [abs_le]; constructor <;> norm_num
  · rw [hT]
    simp only [List.Forall]
    exact ⟨⟨by decide, by norm_num⟩, by decide, by norm_num⟩
  · rw [hF]
    simp only [List.Forall]
    exact ⟨⟨by decide, by norm_num⟩, ⟨by decide, by norm_num⟩,
      ⟨by decide, by norm_num⟩, by decide, by norm_num⟩

/-- C6: the bit-vector codec round-trips exactly: decoding an encoded
fingerprint returns the fingerprint, including the empty one. -/
theorem intbitset_roundtrip :
    (∀ x : Fingerprint, convert_intbitset (adapt_intbitset x) = x) ∧
    convert_intbitset (adapt_intbitset (∅ : Fingerprint)) = ∅ := by
  have h : ∀ x : Fingerprint, convert_intbitset (adapt_intbitset x) = x :=
    fun x => Finset.sort_toFinset _ x
  exact ⟨h, h ∅⟩

/-- C7: the `number_of_bits` metadata lifecycle: absent on a fresh store,
equal to `n` after setting it to `n`, absent again after deleting it, and
the metadata operations leave the identifier→fingerprint entries untouched
(and entry insertion leaves the metadata untouched). -/
theorem number_of_bits_lifecycle (d : IntbitsetDict) (n : ℕ) (id : String)
    (fp : Fingerprint) :
    IntbitsetDict.empty.getNumberOfBits = none ∧
    (d.setNumberOfBits n).getNumberOfBits = some n ∧
    ((d.setNumberOfBits n).deleteNumberOfBits).getNumberOfBits = none ∧
    (d.deleteNumberOfBits).getNumberOfBits = none ∧
    (d.setNumberOfBits n).entries = d.entries ∧
    (d.deleteNumberOfBits).entries = d.entries ∧
    (d.setItem id fp).getNumberOfBits = d.getNumberOfBits :=
  ⟨rfl, rfl, rfl, rfl, rfl, rfl, rfl⟩

/-- C8: `get` on an identifier not contained in a store fails with a
not-found error carrying exactly the missing identifier; the empty store
has length 0 and contains no identifier. -/
theorem getitem_keyerror (d : IntbitsetDict) (id : String)
    (h : d.containsId id = false) :
    d.getItem id = Except.error id ∧
    IntbitsetDict.empty.length = 0 ∧
    (∀ i : String, IntbitsetDict.empty.containsId i = false) := by
  refine ⟨?_, rfl, fun i => rfl⟩
  have h' : ∀ e ∈ d.entries, ¬(e.1 == id) = true := by
    rw [IntbitsetDict.containsId, List.any_eq_false] at h
    exact h
  have hnone : d.entries.find? (fun e => e.1 == id) = none :=
    List.find?_eq_none.mpr h'
  simp [IntbitsetDict.getItem, hnone]

/-- Witness for C8 on the empty store and the identifier of the test. -/
theorem getitem_keyerror_witness :
    IntbitsetDict.empty.containsId "id1" = false ∧
    IntbitsetDict.empty.getItem "id1" = Except.error "id1" :=
  ⟨rfl, (getitem_keyerror IntbitsetDict.empty "id1" rfl).1⟩

/-- C9: the bulk-load session enters the throughput durability mode
(write-ahead journaling, synchronous flush off) and, whatever the body does
— return a value or raise an error — the state handed back to the caller is
the conservative mode (conservative journaling, synchronous flush on), the
body's outcome passing through unchanged. -/
theorem fast_inserter_restores {ε α : Type}
    (body : DbState → DbState × Except ε α) (s sB : DbState)
    (err : ε) (ok : α) :
    ((fastInserterEnter s).journal_mode = JournalMode.wal ∧
     (fastInserterEnter s).synchronous = SyncMode.off) ∧
    ((withFastInserter body s).1.journal_mode = JournalMode.delete ∧
     (withFastInserter body s).1.synchronous = SyncMode.full) ∧
    (withFastInserter body s).2 = (body (fastInserterEnter s)).2 ∧
    (withFastInserter (fun _ => (sB, (Except.error err : Except ε α))) s).1
      = { journal_mode := JournalMode.delete, synchronous := SyncMode.full } ∧
    (withFastInserter (fun _ => (sB, (Except.ok ok : Except ε α))) s).1
      = { journal_mode := JournalMode.delete, synchronous := SyncMode.full } :=
  ⟨⟨rfl, rfl⟩, ⟨rfl, rfl⟩, rfl, rfl, rfl⟩

/-- C5: for a query identifier present in the index, `similar_fragments`
(`find` reshaped) succeeds, every hit carries the query identifier and a
score ≥ `cutoff`, the hits are ordered by non-increasing score, at most
`limit` hits are returned, and with no limit the hits are exactly the
qualifying persisted neighbors; for a query identifier absent from the
index it fails with an error whose message contains the identifier. -/
theorem get_similar_fragments_spec (matrix : List (String × String × ℚ))
    (qid : String) (cutoff : ℚ) (limit : Option ℕ) :
    (appearsIn matrix qid = true →
      ∃ hits, get_similar_fragments matrix qid cutoff limit = Except.ok hits ∧
        (∀ h ∈ hits, h.query_frag_id = qid ∧ cutoff ≤ h.score) ∧
        List.Pairwise (fun x y => y.score ≤ x.score) hits ∧
        (∀ n, limit = some n → hits.length ≤ n) ∧
        (limit = none →
          (hits.map fun h => (h.hit_frag_id, h.score)).Perm
            (qualifying matrix qid cutoff))) ∧
    (appearsIn matrix qid = false →
      ∃ pre post, get_similar_fragments matrix qid cutoff limit
        = Except.error (pre ++ qid ++ post)) := by
  constructor
  · intro ha
    have hfind : find matrix qid cutoff limit
        = Except.ok (truncateTo limit
            (List.insertionSort scoreDescOrder
              (qualifying matrix qid cutoff))) := by
      rw [find, if_pos ha]
    refine ⟨(truncateTo limit
        (List.insertionSort scoreDescOrder
          (qualifying matrix qid cutoff))).map
        (fun h => { query_frag_id := qid, hit_frag_id := h.1, score := h.2 }),
      ?_, ?_, ?_, ?_, ?_⟩
    · rw [get_similar_fragments, hfind]
    · intro h hm
      rw [List.mem_map] at hm
      obtain ⟨p, hp, rfl⟩ := hm
      have hp' : p ∈ List.insertionSort scoreDescOrder
          (qualifying matrix qid cutoff) := by
        cases limit with
        | none => exact hp
        | some n => exact List.mem_of_mem_take hp
      have hq : p ∈ qualifying matrix qid cutoff :=
        (List.mem_insertionSort scoreDescOrder).mp hp'
      have hc := (List.mem_filter.mp hq).2
      exact ⟨rfl, of_decide_eq_true hc⟩
    · have hs : List.Sorted scoreDescOrder
          (List.insertionSort scoreDescOrder
            (qualifying matrix qid cutoff)) :=
        List.sorted_insertionSort scoreDescOrder _
      have hs' : List.Pairwise scoreDescOrder
          (truncateTo limit (List.insertionSort scoreDescOrder
            (qualifying matrix qid cutoff))) := by
        cases limit with
        | none => exact hs
        | some n => exact hs.sublist (List.take_sublist n _)
      rw [List.pairwise_map]
      exact hs'
    · intro n hn
      subst hn
      rw [List.length_map]
      exact List.length_take_le n _
    · intro hl
      subst hl
      have hmm : ∀ l : List (String × ℚ),
          (l.map (fun h =>
              ({ query_frag_id := qid, hit_frag_id := h.1, score := h.2 } : Hit))).map
            (fun h => (h.hit_frag_id, h.score))
          = l := by
        intro l
        induction l with
        | nil => rfl
        | cons x xs ih => simp [ih]
      rw [hmm]
      exact List.perm_insertionSort scoreDescOrder _
  · intro ha
    refine ⟨"Frag ", " not found", ?_⟩
    rw [get_similar_fragments, find, if_neg (by simp [ha])]

/-- Witness for C5 on a one-triple index: the present query `q` succeeds
with qualifying hits, the absent query `zz` fails naming `zz`. -/
theorem get_similar_fragments_spec_witness :
    (∃ hits, get_similar_fragments [("q", "h", (9 : ℚ)/10)] "q" (1/2) none
        = Except.ok hits ∧
      ∀ h ∈ hits, h.query_frag_id = "q" ∧ (1/2 : ℚ) ≤ h.score) ∧
    (∃ pre post, get_similar_fragments [("q", "h", (9 : ℚ)/10)] "zz" (1/2)
        none = Except.error (pre ++ "zz" ++ post)) := by
  have h1 := (get_similar_fragments_spec [("q", "h", (9 : ℚ)/10)] "q"
    (1/2) none).1 (by decide)
  obtain ⟨hits, heq, hmem, _, _, _⟩ := h1
  exact ⟨⟨hits, heq, hmem⟩,
    (get_similar_fragments_spec [("q", "h", (9 : ℚ)/10)] "zz" (1/2) none).2
      (by decide)⟩

/-- C10: `get_similar_fragments` returns exactly one result per pair
produced by the underlying `find` call, in the same order; each result's
query identifier is the input fragment identifier and its hit identifier
and score are the corresponding pair's components. -/
theorem get_similar_fragments_shape (matrix : List (String × String × ℚ))
    (qid : String) (cutoff : ℚ) (limit : Option ℕ)
    (raw : List (String × ℚ))
    (hfind : find matrix qid cutoff limit = Except.ok raw) :
    ∃ hits, get_similar_fragments matrix qid cutoff limit
        = Except.ok hits ∧
      hits.length = raw.length ∧
      ∀ (i : ℕ) (hi : i < hits.length) (hr : i < raw.length),
        (hits.get ⟨i, hi⟩).query_frag_id = qid ∧
        (hits.get ⟨i, hi⟩).hit_frag_id = (raw.get ⟨i, hr⟩).1 ∧
        (hits.get ⟨i, hi⟩).score = (raw.get ⟨i, hr⟩).2 := by
  refine ⟨raw.map (fun h =>
      { query_frag_id := qid, hit_frag_id := h.1, score := h.2 }),
    ?_, by rw [List.length_map], ?_⟩
  · rw [get_similar_fragments, hfind]
  · intro i hi hr
    refine ⟨?_, ?_, ?_⟩ <;> simp

/-- Witness for C10 on a one-triple index, whose `find` call yields the
single raw hit `("h", 9/10)`. -/
theorem get_similar_fragments_shape_witness :
    ∃ hits, get_similar_fragments [("q", "h", (9 : ℚ)/10)] "q" (1/2) none
        = Except.ok hits ∧
      hits.length = ([("h", (9 : ℚ)/10)] : List (String × ℚ)).length := by
  have hq : qualifying [("q", "h", (9 : ℚ)/10)] "q" (1/2)
      = [("h", (9 : ℚ)/10)] := by
    rw [qualifying]
    have hn : neighborsOf [("q", "h", (9 : ℚ)/10)] "q"
        = [("h", (9 : ℚ)/10)] := rfl
    rw [hn, List.filter_cons]
    norm_num
  have hfind : find [("q", "h", (9 : ℚ)/10)] "q" (1/2) none
      = Except.ok [("h", (9 : ℚ)/10)] := by
    rw [find, if_pos (by decide), hq]
    rfl
  obtain ⟨hits, h1, h2, _⟩ :=
    get_similar_fragments_shape [("q", "h", (9 : ℚ)/10)] "q" (1/2) none
      [("h", (9 : ℚ)/10)] hfind
  exact ⟨hits, h1, h2⟩
